import Mathlib

/-
  Verification development for the snapshot subsystem of skaled:
  - SnapshotHashAgent.cpp : distributed snapshot-hash voting
      (verifyAllData, voteForHash, getNodesToDownloadSnapshotFrom)
  - SnapshotManager.cpp : snapshot lifecycle, pruning, diffing and the
      recursive content hasher (doSnapshot, removeSnapshot,
      leaveNLastSnapshots, getLatestSnasphot, makeOrGetDiff,
      proceedFileSystemDirectory)

  The embedding is shallow: hashes, BLS signature shares and public keys
  are modelled as natural numbers, and the BLS primitives (Verification,
  LagrangeCoeffs + SignatureRecover) are fields of the agent record so
  that concrete rounds can instantiate them with executable functions.
  A false return of the modelled Verification also stands for a thrown
  verification exception, because the source treats the two identically
  at every call site (both lead to the same abort or negative outcome).
-/

/-- One entry of the sChain node list: id, ip and base port, as consumed
from ChainParams by SnapshotHashAgent. -/
structure SChainNode where
  id : Nat
  ip : String
  port : Nat
deriving DecidableEq, Repr

/-- Errors thrown out of voteForHash: the nested share-verification error
raised by verifyAllData, and the logic error raised when no hash clears
the supermajority bar. -/
inductive VoteError where
  | shareVerificationFailed
  | notEnoughVotes
deriving DecidableEq, Repr

/-- Result of voteForHash: fault models a thrown exception, rejected the
false return after a failed aggregate verification, voted the true return
together with the voted hash, the recovered aggregate signature and the
indices recorded in nodes_to_download_snapshot_from_. -/
inductive VoteOutcome where
  | fault (e : VoteError)
  | rejected
  | voted (h : Nat) (sig : Nat) (voters : List Nat)
deriving DecidableEq, Repr

/-- Result of getNodesToDownloadSnapshotFrom: fault models a propagated
exception, sources the returned list of peer RPC endpoints. -/
inductive DownloadResult where
  | fault (e : VoteError)
  | sources (urls : List String)
deriving DecidableEq, Repr

/-- State of one SnapshotHashAgent round after the collection join:
the node list and own id from ChainParams, the three peer-indexed arrays
filled by the collection threads (slots of failed peers keep their
default-constructed values), and the BLS primitives together with the
common public key assembled from configuration. -/
structure SnapshotHashAgent where
  nodes : List SChainNode
  ownId : Nat
  hashes : Nat → Nat
  signatures : Nat → Nat
  publicKeys : Nat → Nat
  verify : Nat → Nat → Nat → Bool
  recover : List Nat → List Nat → Option Nat
  commonPublicKey : Nat
  defaultSignature : Nat

/-- n_ : the total node count of the chain. -/
def SnapshotHashAgent.n (A : SnapshotHashAgent) : Nat := A.nodes.length

/-- chain_params_.sChain.nodes[i]. -/
def SnapshotHashAgent.nodeAt (A : SnapshotHashAgent) (i : Nat) : SChainNode :=
  A.nodes.getD i ⟨0, "", 0⟩

/-- The indices the loops of SnapshotHashAgent.cpp actually visit: every
i < n whose node id differs from the own node id (the loops continue on
the own node). -/
def SnapshotHashAgent.nonSelf (A : SnapshotHashAgent) : List Nat :=
  (List.range A.n).filter (fun i => (A.nodeAt i).id ≠ A.ownId)

/-- The tally map_hash of voteForHash: how many visited slots hold hash h. -/
def SnapshotHashAgent.tally (A : SnapshotHashAgent) (h : Nat) : Nat :=
  (A.nonSelf.filter (fun i => A.hashes i = h)).length

/-- The key set of map_hash in its std::map iteration order (ascending
hash value). -/
def SnapshotHashAgent.candidateHashes (A : SnapshotHashAgent) : List Nat :=
  List.insertionSort (fun a b => a ≤ b) ((A.nonSelf.map A.hashes).dedup)

/-- The find_if of voteForHash: the first tallied hash whose count k
satisfies 3 * k > 2 * n. -/
def SnapshotHashAgent.winner (A : SnapshotHashAgent) : Option Nat :=
  A.candidateHashes.find? (fun h => 2 * A.n < 3 * A.tally h)

/-- verifyAllData: every visited slot is verified against its own share
public key; the source throws a nested error on the first failing or
throwing verification, modelled by this conjunction being false. -/
def SnapshotHashAgent.verifyAllData (A : SnapshotHashAgent) : Bool :=
  A.nonSelf.all (fun i => A.verify (A.hashes i) (A.signatures i) (A.publicKeys i))

/-- The loop of voteForHash that records, in index order, the visited
slots whose hash equals the chosen hash (these indices go to
nodes_to_download_snapshot_from_, their successors i + 1 to idx). -/
def SnapshotHashAgent.votersFor (A : SnapshotHashAgent) (h : Nat) : List Nat :=
  A.nonSelf.filter (fun i => A.hashes i = h)

/-- LagrangeCoeffs followed by SignatureRecover on the shares of the
voters; the source catches any exception of the two calls and leaves
common_signature default-constructed, modelled by getD. -/
def SnapshotHashAgent.recoveredSignature (A : SnapshotHashAgent) (h : Nat) : Nat :=
  (A.recover ((A.votersFor h).map (fun i => i + 1))
      ((A.votersFor h).map A.signatures)).getD A.defaultSignature

/-- voteForHash: verify all collected data (abort on failure), tally the
hashes, abort with notEnoughVotes when no hash clears 3 k > 2 n, else
recover the aggregate signature over the winning hash and verify it
against the common public key; a failed (or throwing) aggregate
verification returns false, success returns true with the voted hash. -/
def SnapshotHashAgent.voteForHash (A : SnapshotHashAgent) : VoteOutcome :=
  if A.verifyAllData then
    match A.winner with
    | none => .fault .notEnoughVotes
    | some h =>
      if A.verify h (A.recoveredSignature h) A.commonPublicKey then
        .voted h (A.recoveredSignature h) (A.votersFor h)
      else .rejected
  else .fault .shareVerificationFailed

/-- The endpoint string built for node nd: http://ip:(port + 3). -/
def nodeUrl (nd : SChainNode) : String :=
  "http://" ++ nd.ip ++ ":" ++ toString (nd.port + 3)

/-- The post-join part of getNodesToDownloadSnapshotFrom: invoke the vote
and, on success, map the recorded indices to endpoint strings; a false
vote returns the empty list, a thrown exception propagates. -/
def SnapshotHashAgent.getNodesToDownloadSnapshotFrom (A : SnapshotHashAgent) :
    DownloadResult :=
  match A.voteForHash with
  | .fault e => .fault e
  | .rejected => .sources []
  | .voted _ _ idxs => .sources (idxs.map (fun i => nodeUrl (A.nodeAt i)))

/-- The collection phase of getNodesToDownloadSnapshotFrom: one task per
non-self peer; a successful response writes hash, signature share and
public-key share into the slot of the peer, a caught exception leaves all
three at their default-constructed values (dev::h256() is zero; the
default G1 and G2 elements are modelled by defaultSignature and
defaultPublicKey). The self slot is never written. -/
def buildAgent (nodes : List SChainNode) (ownId : Nat)
    (responses : Nat → Option (Nat × Nat × Nat))
    (verify : Nat → Nat → Nat → Bool) (recover : List Nat → List Nat → Option Nat)
    (commonPublicKey defaultSignature defaultPublicKey : Nat) : SnapshotHashAgent :=
  { nodes := nodes, ownId := ownId
    hashes := fun i => match responses i with | some r => r.1 | none => 0
    signatures := fun i => match responses i with | some r => r.2.1 | none => defaultSignature
    publicKeys := fun i => match responses i with | some r => r.2.2 | none => defaultPublicKey
    verify := verify, recover := recover
    commonPublicKey := commonPublicKey, defaultSignature := defaultSignature }

/-- Disjoint filters of a list cannot together exceed its length. -/
lemma length_filter_add_length_filter_le {α : Type} (l : List α) (p q : α → Bool)
    (hdisj : ∀ a, p a = true → q a = true → False) :
    (l.filter p).length + (l.filter q).length ≤ l.length := by
  induction l with
  | nil => simp
  | cons a l ih =>
    cases hp : p a <;> cases hq : q a
    · simp [List.filter_cons, hp, hq]
      omega
    · simp [List.filter_cons, hp, hq]
      omega
    · simp [List.filter_cons, hp, hq]
      omega
    · exact (hdisj a hp hq).elim

/-- The visited index list is at most the full node count long. -/
lemma SnapshotHashAgent.nonSelf_length_le (A : SnapshotHashAgent) :
    A.nonSelf.length ≤ A.n := by
  have := List.length_filter_le
      (fun i => decide ((A.nodeAt i).id ≠ A.ownId)) (List.range A.n)
  simpa [SnapshotHashAgent.nonSelf] using this

/-- At most one hash value can clear the strict supermajority bar. -/
lemma SnapshotHashAgent.supermajority_unique (A : SnapshotHashAgent) {h h' : Nat}
    (hh : 2 * A.n < 3 * A.tally h) (hh' : 2 * A.n < 3 * A.tally h') : h = h' := by
  by_contra hne
  have hdisj : ∀ i, decide (A.hashes i = h) = true →
      decide (A.hashes i = h') = true → False := by
    intro i hih hih'
    exact hne ((of_decide_eq_true hih).symm.trans (of_decide_eq_true hih'))
  have hsum : A.tally h + A.tally h' ≤ A.nonSelf.length :=
    length_filter_add_length_filter_le A.nonSelf _ _ hdisj
  have hn := A.nonSelf_length_le
  unfold SnapshotHashAgent.tally at hh hh'
  unfold SnapshotHashAgent.tally at hsum
  omega

/-- The tallied key set holds exactly the hashes reported in visited slots. -/
lemma SnapshotHashAgent.mem_candidateHashes (A : SnapshotHashAgent) {h : Nat} :
    h ∈ A.candidateHashes ↔ ∃ i ∈ A.nonSelf, A.hashes i = h := by
  unfold SnapshotHashAgent.candidateHashes
  rw [List.mem_insertionSort, List.mem_dedup, List.mem_map]

/-- A supermajority hash is reported by at least one visited slot. -/
lemma SnapshotHashAgent.exists_reporter_of_supermajority (A : SnapshotHashAgent)
    {h : Nat} (hsup : 2 * A.n < 3 * A.tally h) :
    ∃ i ∈ A.nonSelf, A.hashes i = h := by
  have hpos : 0 < A.tally h := by
    unfold SnapshotHashAgent.tally at hsup ⊢
    omega
  unfold SnapshotHashAgent.tally at hpos
  obtain ⟨i, hi⟩ := List.exists_mem_of_ne_nil _ (List.length_pos.mp hpos)
  have := List.mem_filter.mp hi
  exact ⟨i, this.1, of_decide_eq_true this.2⟩

/-- The find_if of voteForHash succeeds with hash h exactly when h clears
the 3 k > 2 n bar, independently of the map iteration order, because at
most one hash can clear it. -/
lemma SnapshotHashAgent.winner_eq_some_iff (A : SnapshotHashAgent) {h : Nat} :
    A.winner = some h ↔ 2 * A.n < 3 * A.tally h := by
  constructor
  · intro hw
    unfold SnapshotHashAgent.winner at hw
    have hp := List.find?_some hw
    simpa using hp
  · intro hsup
    have hmem : h ∈ A.candidateHashes :=
      A.mem_candidateHashes.mpr (A.exists_reporter_of_supermajority hsup)
    cases hw : A.winner with
    | none =>
      unfold SnapshotHashAgent.winner at hw
      rw [List.find?_eq_none] at hw
      exact absurd (decide_eq_true hsup) (hw h hmem)
    | some h2 =>
      have hw2 := hw
      unfold SnapshotHashAgent.winner at hw2
      have hp2 := List.find?_some hw2
      have hph2 : 2 * A.n < 3 * A.tally h2 := by simpa using hp2
      rw [A.supermajority_unique hph2 hsup]

/-- voteForHash when verifyAllData raises: the round aborts. -/
lemma SnapshotHashAgent.voteForHash_of_bad_share (A : SnapshotHashAgent)
    (hver : A.verifyAllData = false) :
    A.voteForHash = .fault .shareVerificationFailed := by
  simp [SnapshotHashAgent.voteForHash, hver]

/-- voteForHash when all data verifies but the tally has no supermajority:
the source throws its logic error. -/
lemma SnapshotHashAgent.voteForHash_of_no_winner (A : SnapshotHashAgent)
    (hver : A.verifyAllData = true) (hw : A.winner = none) :
    A.voteForHash = .fault .notEnoughVotes := by
  simp [SnapshotHashAgent.voteForHash, hver, hw]

/-- voteForHash when all data verifies and hash h wins the tally: the
outcome is decided by the aggregate verification alone. -/
lemma SnapshotHashAgent.voteForHash_of_winner (A : SnapshotHashAgent)
    (hver : A.verifyAllData = true) {h : Nat} (hw : A.winner = some h) :
    A.voteForHash =
      if A.verify h (A.recoveredSignature h) A.commonPublicKey then
        VoteOutcome.voted h (A.recoveredSignature h) (A.votersFor h)
      else VoteOutcome.rejected := by
  simp [SnapshotHashAgent.voteForHash, hver, hw]

/-- A four-node chain used by the concrete voting rounds below; the own
node is the one with id 1, so the visited slots are 1, 2 and 3. -/
def fourNodes : List SChainNode :=
  [⟨1, "10.0.0.1", 100⟩, ⟨2, "10.0.0.2", 200⟩, ⟨3, "10.0.0.3", 300⟩, ⟨4, "10.0.0.4", 400⟩]

/-- C1: for every completed collection round, voteForHash selects a hash
value H if and only if the number k of non-self peers reporting H
satisfies 3 k > 2 n where n is the total node count (selection further
requires that all shares verified and that the recovered aggregate
signature verifies, which are exactly the other two steps of a successful
vote); and on a successful vote, getNodesToDownloadSnapshotFrom returns
the RPC endpoints of exactly those peers whose reported hash equals the
voted hash, with the node itself excluded. -/
theorem voteForHash_supermajority_and_download_sources (A : SnapshotHashAgent) :
    (∀ h s idxs, A.voteForHash = .voted h s idxs →
        2 * A.n < 3 * A.tally h ∧
        idxs = A.votersFor h ∧
        (∀ i ∈ idxs, (A.nodeAt i).id ≠ A.ownId) ∧
        A.getNodesToDownloadSnapshotFrom =
          .sources ((A.votersFor h).map (fun i => nodeUrl (A.nodeAt i)))) ∧
    (∀ h, A.verifyAllData = true → 2 * A.n < 3 * A.tally h →
        A.verify h (A.recoveredSignature h) A.commonPublicKey = true →
        A.voteForHash = .voted h (A.recoveredSignature h) (A.votersFor h)) := by
  constructor
  · intro h s idxs hv
    cases hver : A.verifyAllData with
    | false => rw [A.voteForHash_of_bad_share hver] at hv; cases hv
    | true =>
      cases hw : A.winner with
      | none => rw [A.voteForHash_of_no_winner hver hw] at hv; cases hv
      | some h2 =>
        rw [A.voteForHash_of_winner hver hw] at hv
        by_cases hagg : A.verify h2 (A.recoveredSignature h2) A.commonPublicKey = true
        · rw [if_pos hagg] at hv
          have h2eq : h2 = h := by cases hv; rfl
          subst h2eq
          have hidx : idxs = A.votersFor h2 := by cases hv; rfl
          refine ⟨A.winner_eq_some_iff.mp hw, hidx, ?_, ?_⟩
          · intro i hi
            rw [hidx] at hi
            have hmem := (List.mem_filter.mp hi).1
            have := (List.mem_filter.mp hmem).2
            exact of_decide_eq_true this
          · unfold SnapshotHashAgent.getNodesToDownloadSnapshotFrom
            rw [A.voteForHash_of_winner hver hw, if_pos hagg]
        · rw [if_neg hagg] at hv; cases hv
  · intro h hver hsup hagg
    rw [A.voteForHash_of_winner hver (A.winner_eq_some_iff.mpr hsup), if_pos hagg]

/-- A round on fourNodes in which the three visited peers all report
hash 7 with shares that verify, and the aggregate verification succeeds. -/
def agentSuper : SnapshotHashAgent :=
  { nodes := fourNodes, ownId := 1
    hashes := fun i => if i = 0 then 0 else 7
    signatures := fun _ => 1
    publicKeys := fun _ => 1
    verify := fun _ _ _ => true
    recover := fun _ _ => some 42
    commonPublicKey := 1
    defaultSignature := 0 }

/-- Witness for C1: on agentSuper the hypotheses of the selection
direction hold concretely (3 * 3 > 2 * 4) and voteForHash votes hash 7
with voters 1, 2, 3. -/
theorem voteForHash_supermajority_witness :
    agentSuper.verifyAllData = true ∧
    2 * agentSuper.n < 3 * agentSuper.tally 7 ∧
    agentSuper.verify 7 (agentSuper.recoveredSignature 7) agentSuper.commonPublicKey = true ∧
    agentSuper.voteForHash =
      .voted 7 (agentSuper.recoveredSignature 7) (agentSuper.votersFor 7) :=
  ⟨by decide, by decide, by decide,
    (voteForHash_supermajority_and_download_sources agentSuper).2 7
      (by decide) (by decide) (by decide)⟩

/-- A round on fourNodes with a split tally: visited peers 1 and 2 report
hash 5 and peer 3 reports hash 9, all shares verifying; no hash clears
3 k > 2 n, so the source throws its logic error. -/
def agentSplit : SnapshotHashAgent :=
  { nodes := fourNodes, ownId := 1
    hashes := fun i => if i = 3 then 9 else 5
    signatures := fun _ => 1
    publicKeys := fun _ => 1
    verify := fun _ _ _ => true
    recover := fun _ _ => some 1
    commonPublicKey := 1
    defaultSignature := 0 }

/-- C2 counterexample: a round with no supermajority makes voteForHash
throw (fault notEnoughVotes) and the exception propagates out of
getNodesToDownloadSnapshotFrom, which therefore does not return the empty
list the claim promises. -/
theorem no_quorum_raises_instead_of_empty_list :
    agentSplit.voteForHash = .fault .notEnoughVotes ∧
    agentSplit.getNodesToDownloadSnapshotFrom = .fault .notEnoughVotes ∧
    agentSplit.getNodesToDownloadSnapshotFrom ≠ .sources [] := by
  refine ⟨by decide, by decide, by decide⟩

/-- C2 (amended): when every share verifies, a failed aggregate-signature
verification is reported as a negative result (voteForHash returns false
and getNodesToDownloadSnapshotFrom returns the empty list), whereas a
missing supermajority makes voteForHash throw a not-enough-votes logic
error that propagates out of getNodesToDownloadSnapshotFrom. -/
theorem aggregate_failure_negative_no_quorum_fault (A : SnapshotHashAgent)
    (hver : A.verifyAllData = true) :
    (∀ h, A.winner = some h →
        A.verify h (A.recoveredSignature h) A.commonPublicKey = false →
        A.voteForHash = .rejected ∧
        A.getNodesToDownloadSnapshotFrom = .sources []) ∧
    (A.winner = none →
        A.voteForHash = .fault .notEnoughVotes ∧
        A.getNodesToDownloadSnapshotFrom = .fault .notEnoughVotes) := by
  constructor
  · intro h hw hagg
    have hvote : A.voteForHash = .rejected := by
      rw [A.voteForHash_of_winner hver hw, if_neg (by rw [hagg]; exact Bool.false_ne_true)]
    refine ⟨hvote, ?_⟩
    unfold SnapshotHashAgent.getNodesToDownloadSnapshotFrom
    rw [hvote]
  · intro hw
    have hvote := A.voteForHash_of_no_winner hver hw
    refine ⟨hvote, ?_⟩
    unfold SnapshotHashAgent.getNodesToDownloadSnapshotFrom
    rw [hvote]

/-- A round on fourNodes in which the three visited peers all report
hash 5 with share public key 7 and the share checks pass, but the common
public key from configuration is 0, so the aggregate verification fails. -/
def agentAggFail : SnapshotHashAgent :=
  { nodes := fourNodes, ownId := 1
    hashes := fun _ => 5
    signatures := fun _ => 1
    publicKeys := fun _ => 7
    verify := fun _ _ p => decide (p = 7)
    recover := fun _ _ => some 1
    commonPublicKey := 0
    defaultSignature := 0 }

/-- Witness for the amended C2: agentAggFail satisfies the hypotheses
concretely and the round ends with a negative result and an empty list. -/
theorem aggregate_failure_negative_witness :
    agentAggFail.verifyAllData = true ∧
    agentAggFail.winner = some 5 ∧
    agentAggFail.verify 5 (agentAggFail.recoveredSignature 5) agentAggFail.commonPublicKey
      = false ∧
    agentAggFail.voteForHash = .rejected ∧
    agentAggFail.getNodesToDownloadSnapshotFrom = .sources [] := by
  refine ⟨by decide, by decide, by decide, ?_, ?_⟩
  · exact ((aggregate_failure_negative_no_quorum_fault agentAggFail (by decide)).1 5
      (by decide) (by decide)).1
  · exact ((aggregate_failure_negative_no_quorum_fault agentAggFail (by decide)).1 5
      (by decide) (by decide)).2

/-- A collection run on fourNodes in which peers 1 and 2 answer with hash
7, signature share 11 and public-key share 3, while the RPC call of peer 3
fails and its slot keeps its default values. -/
def respPartial : Nat → Option (Nat × Nat × Nat) := fun i =>
  if i = 1 ∨ i = 2 then some (7, 11, 3) else none

/-- A toy share verification under which the two answered slots verify
while the default-valued slot of the failed peer does not. -/
def verifyToy : Nat → Nat → Nat → Bool := fun h s p => decide (s = h + p + 1)

/-- The agent state after the collection run respPartial. -/
def agentPeerDown : SnapshotHashAgent :=
  buildAgent fourNodes 1 respPartial verifyToy (fun _ _ => some 0) 1 0 0

/-- C3 counterexample: a round in which exactly one peer RPC failed (its
slot keeping the default triple) does not proceed through voting on the
remaining data — verifyAllData also checks the empty slot, whose default
triple fails share verification, so the whole round aborts. -/
theorem peer_failure_aborts_round :
    respPartial 3 = none ∧
    respPartial 1 = some (7, 11, 3) ∧
    respPartial 2 = some (7, 11, 3) ∧
    agentPeerDown.hashes 3 = 0 ∧
    agentPeerDown.signatures 3 = 0 ∧
    agentPeerDown.voteForHash = .fault .shareVerificationFailed ∧
    agentPeerDown.getNodesToDownloadSnapshotFrom = .fault .shareVerificationFailed := by
  refine ⟨by decide, by decide, by decide, by decide, by decide, by decide, by decide⟩

/-- C3 (amended): an RPC or decode failure of an individual peer is caught
and leaves that peer slot holding the default-constructed triple without
aborting the collection; the subsequent voteForHash however verifies every
non-self slot including the defaulted one, so the round aborts with a
share-verification fault whenever the default triple fails verification. -/
theorem collection_failure_leaves_defaults_then_verification_aborts
    (nodes : List SChainNode) (ownId : Nat)
    (responses : Nat → Option (Nat × Nat × Nat))
    (verify : Nat → Nat → Nat → Bool) (recover : List Nat → List Nat → Option Nat)
    (cpk dsig dpk : Nat) (A : SnapshotHashAgent)
    (hA : A = buildAgent nodes ownId responses verify recover cpk dsig dpk)
    (i : Nat) (hi : i < nodes.length)
    (hid : (nodes.getD i ⟨0, "", 0⟩).id ≠ ownId)
    (hresp : responses i = none)
    (hdef : verify 0 dsig dpk = false) :
    A.hashes i = 0 ∧ A.signatures i = dsig ∧ A.publicKeys i = dpk ∧
    A.voteForHash = .fault .shareVerificationFailed ∧
    A.getNodesToDownloadSnapshotFrom = .fault .shareVerificationFailed := by
  subst hA
  have hh : (buildAgent nodes ownId responses verify recover cpk dsig dpk).hashes i = 0 := by
    simp [buildAgent, hresp]
  have hs : (buildAgent nodes ownId responses verify recover cpk dsig dpk).signatures i
      = dsig := by
    simp [buildAgent, hresp]
  have hp : (buildAgent nodes ownId responses verify recover cpk dsig dpk).publicKeys i
      = dpk := by
    simp [buildAgent, hresp]
  have hmem : i ∈ (buildAgent nodes ownId responses verify recover cpk dsig dpk).nonSelf := by
    unfold SnapshotHashAgent.nonSelf
    refine List.mem_filter.mpr ⟨List.mem_range.mpr ?_, decide_eq_true ?_⟩
    · exact hi
    · simpa [SnapshotHashAgent.nodeAt, buildAgent] using hid
  have hver : (buildAgent nodes ownId responses verify recover cpk dsig dpk).verifyAllData
      = false := by
    cases hv : (buildAgent nodes ownId responses verify recover cpk dsig dpk).verifyAllData
    · rfl
    · exfalso
      unfold SnapshotHashAgent.verifyAllData at hv
      have := List.all_eq_true.mp hv i hmem
      rw [hh, hs, hp] at this
      simp [buildAgent] at this
      rw [hdef] at this
      cases this
  have hvote := SnapshotHashAgent.voteForHash_of_bad_share _ hver
  refine ⟨hh, hs, hp, hvote, ?_⟩
  unfold SnapshotHashAgent.getNodesToDownloadSnapshotFrom
  rw [hvote]

/-- Witness for the amended C3, at the concrete round agentPeerDown with
failed peer 3. -/
theorem collection_failure_witness :
    agentPeerDown = buildAgent fourNodes 1 respPartial verifyToy (fun _ _ => some 0) 1 0 0 ∧
    3 < fourNodes.length ∧
    (fourNodes.getD 3 ⟨0, "", 0⟩).id ≠ 1 ∧
    respPartial 3 = none ∧
    verifyToy 0 0 0 = false ∧
    agentPeerDown.voteForHash = .fault .shareVerificationFailed :=
  ⟨rfl, by decide, by decide, by decide, by decide,
    (collection_failure_leaves_defaults_then_verification_aborts fourNodes 1 respPartial
      verifyToy (fun _ _ => some 0) 1 0 0 agentPeerDown rfl 3 (by decide) (by decide)
      (by decide) (by decide)).2.2.2.1⟩

/-- C4: if any collected triple fails verification against its own share
public key, voteForHash aborts with the (nested) share-verification fault
before any tallying — whatever the tallies are — and the fault propagates
out of getNodesToDownloadSnapshotFrom; a forged share is never silently
counted or skipped. -/
theorem forged_share_is_hard_fault (A : SnapshotHashAgent) (i : Nat)
    (hi : i ∈ A.nonSelf)
    (hbad : A.verify (A.hashes i) (A.signatures i) (A.publicKeys i) = false) :
    A.voteForHash = .fault .shareVerificationFailed ∧
    A.getNodesToDownloadSnapshotFrom = .fault .shareVerificationFailed := by
  have hver : A.verifyAllData = false := by
    cases hv : A.verifyAllData
    · rfl
    · exfalso
      unfold SnapshotHashAgent.verifyAllData at hv
      have := List.all_eq_true.mp hv i hi
      rw [hbad] at this
      cases this
  have hvote := A.voteForHash_of_bad_share hver
  refine ⟨hvote, ?_⟩
  unfold SnapshotHashAgent.getNodesToDownloadSnapshotFrom
  rw [hvote]

/-- A round on fourNodes with one forged share: every visited peer reports
hash 5, the shares of peers 1 and 3 verify (signature equals public key)
but peer 2 carries a bogus signature. -/
def agentForged : SnapshotHashAgent :=
  { nodes := fourNodes, ownId := 1
    hashes := fun _ => 5
    signatures := fun i => if i = 2 then 99 else 1
    publicKeys := fun _ => 1
    verify := fun _ s p => decide (s = p)
    recover := fun _ _ => some 1
    commonPublicKey := 1
    defaultSignature := 0 }

/-- Witness for C4: the forged share of peer 2 makes the concrete round
agentForged abort with the share-verification fault. -/
theorem forged_share_witness :
    2 ∈ agentForged.nonSelf ∧
    agentForged.verify (agentForged.hashes 2) (agentForged.signatures 2)
      (agentForged.publicKeys 2) = false ∧
    agentForged.voteForHash = .fault .shareVerificationFailed ∧
    agentForged.getNodesToDownloadSnapshotFrom = .fault .shareVerificationFailed :=
  ⟨by decide, by decide,
    (forged_share_is_hard_fault agentForged 2 (by decide) (by decide)).1,
    (forged_share_is_hard_fault agentForged 2 (by decide) (by decide)).2⟩

/-- The exceptions of SnapshotManager relevant to the modelled operations. -/
inductive SMError where
  | snapshotPresent (b : Nat)
  | snapshotAbsent (b : Nat)
  | cannotPerformBtrfsOperation
  | cannotWrite
deriving DecidableEq, Repr

/-- Result of a SnapshotManager operation: ok models a normal return, err
a thrown exception. -/
inductive SMResult (α : Type) where
  | ok (value : α)
  | err (e : SMError)
deriving DecidableEq, Repr

/-- The filesystem state seen by SnapshotManager: the set of per-block
snapshot directories under snapshots/ and the set of per-block volume
clones (block number, volume name) inside them. -/
structure SnapFS where
  dirs : List Nat
  vols : List (Nat × String)
deriving DecidableEq, Repr

/-- doSnapshot(b): throw SnapshotPresent if the per-block directory
exists, else create it and one read-only clone per configured volume. -/
def doSnapshot (volumes : List String) (b : Nat) (fs : SnapFS) : SMResult SnapFS :=
  if b ∈ fs.dirs then .err (.snapshotPresent b)
  else .ok ⟨b :: fs.dirs, volumes.map (fun v => (b, v)) ++ fs.vols⟩

/-- The volume-deletion loop shared by removeSnapshot and
leaveNLastSnapshots: btrfs subvolume delete per configured volume, which
fails (non-zero result, hence CannotPerformBtrfsOperation) when the clone
does not exist. -/
def deleteVolumeClones (b : Nat) : List String → SnapFS → SMResult SnapFS
  | [], fs => .ok fs
  | v :: rest, fs =>
    if (b, v) ∈ fs.vols then deleteVolumeClones b rest ⟨fs.dirs, fs.vols.erase (b, v)⟩
    else .err .cannotPerformBtrfsOperation

/-- removeSnapshot(b): throw SnapshotAbsent if the per-block directory is
missing, else delete every volume clone under it; the source never removes
the per-block directory itself. -/
def removeSnapshot (volumes : List String) (b : Nat) (fs : SnapFS) : SMResult SnapFS :=
  if b ∈ fs.dirs then deleteVolumeClones b volumes fs
  else .err (.snapshotAbsent b)

instance : IsTotal Nat (fun a b : Nat => b ≤ a) := ⟨fun a b => le_total b a⟩

instance : IsTrans Nat (fun a b : Nat => b ≤ a) := ⟨fun _ _ _ hab hbc => le_trans hbc hab⟩

/-- The std::map of leaveNLastSnapshots and getLatestSnasphot: the
non-genesis snapshot directory names parsed as integers, with duplicate
keys collapsed, in the iteration order of a map keyed by std::greater,
that is descending. -/
def snapshotNumbersDesc (dirs : List Nat) : List Nat :=
  List.insertionSort (fun a b : Nat => b ≤ a) ((dirs.filter (fun b => b ≠ 0)).dedup)

/-- getLatestSnasphot: return (0, 0) on an empty map; otherwise read fst
from rbegin (the last element in descending order, that is the SMALLEST
non-genesis block) and then return 0 as snd when the map has more than one
entry, else dereference the incremented reverse iterator, which is past
the end — undefined behaviour, modelled as none. -/
def getLatestSnasphot (dirs : List Nat) : Option (Nat × Nat) :=
  let numbers := snapshotNumbersDesc dirs
  if numbers.isEmpty then some (0, 0)
  else
    let fst := numbers.getLast?.getD 0
    if 1 < numbers.length then some (fst, 0)
    else none

/-- The deletion loop of leaveNLastSnapshots over the blocks that fall
after the first n map entries: delete every volume clone of the block,
then remove the per-block directory (fs::remove_all). -/
def pruneSnapshots (volumes : List String) : List Nat → SnapFS → SMResult SnapFS
  | [], fs => .ok fs
  | b :: rest, fs =>
    match deleteVolumeClones b volumes fs with
    | .ok fs1 => pruneSnapshots volumes rest ⟨fs1.dirs.erase b, fs1.vols⟩
    | .err e => .err e

/-- leaveNLastSnapshots(n): keep the first n entries of the descending
non-genesis map (and the genesis directory 0, which the loop skips
unconditionally), deleting every later entry. -/
def leaveNLastSnapshots (volumes : List String) (n : Nat) (fs : SnapFS) : SMResult SnapFS :=
  pruneSnapshots volumes ((snapshotNumbersDesc fs.dirs).drop n) fs

/-- C5 (code behaviour at the failing input): removeSnapshot deletes the
volume clones but leaves the per-block directory in place, so the sequence
doSnapshot(1); removeSnapshot(1); doSnapshot(1) on a fresh state with
volumes a and b ends with SnapshotPresent(1) instead of succeeding. -/
theorem doSnapshot_remove_doSnapshot_fails :
    doSnapshot ["a", "b"] 1 ⟨[], []⟩ = .ok ⟨[1], [(1, "a"), (1, "b")]⟩ ∧
    removeSnapshot ["a", "b"] 1 ⟨[1], [(1, "a"), (1, "b")]⟩ = .ok ⟨[1], []⟩ ∧
    doSnapshot ["a", "b"] 1 ⟨[1], []⟩ = .err (.snapshotPresent 1) := by
  refine ⟨rfl, rfl, rfl⟩

/-- C6 (code behaviour at the failing input): with snapshots 0, 5 and 7 on
disk, getLatestSnasphot returns (5, 0) — rbegin of the descending map is
the smallest non-genesis block — instead of the (7, 5) the claim
describes; and the result differs from (7, 5). -/
theorem getLatestSnasphot_returns_smallest :
    getLatestSnasphot [0, 5, 7] = some (5, 0) ∧
    getLatestSnasphot [0, 5, 7] ≠ some (7, 5) := by
  refine ⟨by decide, by decide⟩

/-- The descending map key list never holds duplicates. -/
lemma snapshotNumbersDesc_nodup (dirs : List Nat) : (snapshotNumbersDesc dirs).Nodup := by
  unfold snapshotNumbersDesc
  exact (List.perm_insertionSort _ _).nodup_iff.mpr (List.nodup_dedup _)

/-- The descending map holds exactly the non-genesis directory names. -/
lemma mem_snapshotNumbersDesc (dirs : List Nat) (b : Nat) :
    b ∈ snapshotNumbersDesc dirs ↔ b ∈ dirs ∧ b ≠ 0 := by
  unfold snapshotNumbersDesc
  rw [List.mem_insertionSort, List.mem_dedup, List.mem_filter]
  simp

/-- The map iteration order is strictly descending. -/
lemma snapshotNumbersDesc_pairwise (dirs : List Nat) :
    (snapshotNumbersDesc dirs).Pairwise (fun a b => b < a) := by
  have hs : (snapshotNumbersDesc dirs).Pairwise (fun a b : Nat => b ≤ a) :=
    List.sorted_insertionSort _ _
  have hn : (snapshotNumbersDesc dirs).Pairwise (fun a b : Nat => a ≠ b) :=
    snapshotNumbersDesc_nodup dirs
  exact (hs.and hn).imp (fun hab => lt_of_le_of_ne hab.1 (Ne.symm hab.2))

/-- When the directory list has no duplicates, the map has as many entries
as there are non-genesis directories. -/
lemma length_snapshotNumbersDesc (dirs : List Nat) (h : dirs.Nodup) :
    (snapshotNumbersDesc dirs).length = (dirs.filter (fun b => b ≠ 0)).length := by
  unfold snapshotNumbersDesc
  rw [(List.perm_insertionSort _ _).length_eq, (h.filter _).dedup]

/-- Deleting the volume clones of block b succeeds when all configured
clones are present, leaves the directories untouched, and removes exactly
the clone entries of block b. -/
lemma deleteVolumeClones_spec (b : Nat) :
    ∀ (volNames : List String) (fs : SnapFS), fs.vols.Nodup → volNames.Nodup →
    (∀ v ∈ volNames, (b, v) ∈ fs.vols) →
    ∃ fs2, deleteVolumeClones b volNames fs = .ok fs2 ∧
      fs2.dirs = fs.dirs ∧ fs2.vols.Nodup ∧
      (∀ p : Nat × String, p ∈ fs2.vols ↔ p ∈ fs.vols ∧ ¬(p.1 = b ∧ p.2 ∈ volNames)) := by
  intro volNames
  induction volNames with
  | nil =>
    intro fs hnd _ _
    exact ⟨fs, rfl, rfl, hnd, fun p => by simp⟩
  | cons v rest ih =>
    intro fs hnd hvn hpres
    have hin : (b, v) ∈ fs.vols := hpres v (List.mem_cons_self v rest)
    have hnd2 : (fs.vols.erase (b, v)).Nodup := hnd.erase _
    have hpres2 : ∀ w ∈ rest, (b, w) ∈ fs.vols.erase (b, v) := by
      intro w hw
      have hwv : w ≠ v := by
        intro he
        subst he
        exact (List.nodup_cons.mp hvn).1 hw
      refine (hnd.mem_erase_iff).mpr ⟨?_, hpres w (List.mem_cons_of_mem _ hw)⟩
      intro he
      exact hwv (congrArg Prod.snd he)
    obtain ⟨fs2, hrun, hdirs, hnd3, hmem⟩ :=
      ih ⟨fs.dirs, fs.vols.erase (b, v)⟩ hnd2 (List.nodup_cons.mp hvn).2 hpres2
    refine ⟨fs2, ?_, hdirs, hnd3, ?_⟩
    · show deleteVolumeClones b (v :: rest) fs = .ok fs2
      unfold deleteVolumeClones
      rw [if_pos hin]
      exact hrun
    · intro p
      rw [hmem p]
      show p ∈ fs.vols.erase (b, v) ∧ _ ↔ _
      rw [hnd.mem_erase_iff]
      simp only [List.mem_cons]
      constructor
      · rintro ⟨⟨hne, hp⟩, hnr⟩
        refine ⟨hp, ?_⟩
        rintro ⟨hb, hv | hr⟩
        · exact hne (Prod.ext hb hv)
        · exact hnr ⟨hb, hr⟩
      · rintro ⟨hp, hno⟩
        refine ⟨⟨?_, hp⟩, ?_⟩
        · intro he
          exact hno ⟨congrArg Prod.fst he, Or.inl (congrArg Prod.snd he)⟩
        · rintro ⟨hb, hr⟩
          exact hno ⟨hb, Or.inr hr⟩

/-- The deletion loop of leaveNLastSnapshots succeeds when the clones of
every block to delete are present, and removes exactly the listed blocks
from the directory set. -/
lemma pruneSnapshots_spec (volNames : List String) (hvn : volNames.Nodup) :
    ∀ (td : List Nat) (fs : SnapFS), fs.dirs.Nodup → fs.vols.Nodup → td.Nodup →
    (∀ b ∈ td, ∀ v ∈ volNames, (b, v) ∈ fs.vols) →
    ∃ fs2, pruneSnapshots volNames td fs = .ok fs2 ∧
      fs2.dirs.Nodup ∧
      (∀ b, b ∈ fs2.dirs ↔ b ∈ fs.dirs ∧ b ∉ td) := by
  intro td
  induction td with
  | nil =>
    intro fs hd _ _ _
    exact ⟨fs, rfl, hd, fun b => by simp⟩
  | cons b rest ih =>
    intro fs hd hv htd hpres
    obtain ⟨fs1, hrun1, hdirs1, hnd1, hmem1⟩ :=
      deleteVolumeClones_spec b volNames fs hv hvn
        (fun v hvv => hpres b (List.mem_cons_self b rest) v hvv)
    have hd1 : (fs1.dirs.erase b).Nodup := by
      rw [hdirs1]
      exact hd.erase _
    have hrestnd : rest.Nodup := (List.nodup_cons.mp htd).2
    have hbnr : b ∉ rest := (List.nodup_cons.mp htd).1
    have hpres2 : ∀ c ∈ rest, ∀ v ∈ volNames, (c, v) ∈ fs1.vols := by
      intro c hc v hvv
      refine (hmem1 (c, v)).mpr ⟨hpres c (List.mem_cons_of_mem _ hc) v hvv, ?_⟩
      rintro ⟨hcb, _⟩
      exact hbnr (hcb ▸ hc)
    obtain ⟨fs2, hrun2, hnd2, hmem2⟩ :=
      ih ⟨fs1.dirs.erase b, fs1.vols⟩ hd1 hnd1 hrestnd hpres2
    refine ⟨fs2, ?_, hnd2, ?_⟩
    · show pruneSnapshots volNames (b :: rest) fs = .ok fs2
      unfold pruneSnapshots
      rw [hrun1]
      exact hrun2
    · intro c
      rw [hmem2 c]
      show c ∈ fs1.dirs.erase b ∧ _ ↔ _
      rw [hdirs1, hd.mem_erase_iff]
      simp only [List.mem_cons]
      constructor
      · rintro ⟨⟨hne, hin⟩, hnr⟩
        exact ⟨hin, fun hc => hc.elim hne hnr⟩
      · rintro ⟨hin, hno⟩
        exact ⟨⟨fun he => hno (Or.inl he), hin⟩, fun hr => hno (Or.inr hr)⟩

/-- C9: leaveNLastSnapshots(n) succeeds on a well-formed state, retains
the genesis snapshot 0 unconditionally plus exactly min(n, number of
non-genesis snapshots) of the snapshots with the highest block numbers
(the first n entries of the strictly descending numeric map order), and
deletes all other snapshots; block 0 is never pruned. -/
theorem leaveNLastSnapshots_spec (volumes : List String) (n : Nat) (fs : SnapFS)
    (hdirs : fs.dirs.Nodup) (hvols : fs.vols.Nodup) (hvnames : volumes.Nodup)
    (hpres : ∀ b ∈ fs.dirs, b ≠ 0 → ∀ v ∈ volumes, (b, v) ∈ fs.vols) :
    ∃ fs2, leaveNLastSnapshots volumes n fs = .ok fs2 ∧
      (∀ b, b ∈ fs2.dirs ↔
          b ∈ fs.dirs ∧ (b = 0 ∨ b ∈ (snapshotNumbersDesc fs.dirs).take n)) ∧
      (0 ∈ fs.dirs → 0 ∈ fs2.dirs) ∧
      (fs2.dirs.filter (fun b => b ≠ 0)).length
        = min n ((fs.dirs.filter (fun b => b ≠ 0)).length) ∧
      (∀ b ∈ (snapshotNumbersDesc fs.dirs).take n,
        ∀ c ∈ fs.dirs, c ≠ 0 → c ∉ (snapshotNumbersDesc fs.dirs).take n → c < b) := by
  have hdescnd : (snapshotNumbersDesc fs.dirs).Nodup := snapshotNumbersDesc_nodup fs.dirs
  have htdnd : ((snapshotNumbersDesc fs.dirs).drop n).Nodup :=
    (List.drop_sublist n _).nodup hdescnd
  have htdmem : ∀ b ∈ (snapshotNumbersDesc fs.dirs).drop n, b ∈ fs.dirs ∧ b ≠ 0 :=
    fun b hb => (mem_snapshotNumbersDesc _ _).mp ((List.drop_sublist n _).subset hb)
  have hprestd : ∀ b ∈ (snapshotNumbersDesc fs.dirs).drop n,
      ∀ v ∈ volumes, (b, v) ∈ fs.vols :=
    fun b hb v hv => hpres b (htdmem b hb).1 (htdmem b hb).2 v hv
  obtain ⟨fs2, hrun, hnd2, hmem2⟩ :=
    pruneSnapshots_spec volumes hvnames ((snapshotNumbersDesc fs.dirs).drop n) fs
      hdirs hvols htdnd hprestd
  have hsplit : (snapshotNumbersDesc fs.dirs).take n ++ (snapshotNumbersDesc fs.dirs).drop n
      = snapshotNumbersDesc fs.dirs := List.take_append_drop n _
  have hkey : ∀ b, b ∈ fs.dirs →
      (b ∉ (snapshotNumbersDesc fs.dirs).drop n ↔
        (b = 0 ∨ b ∈ (snapshotNumbersDesc fs.dirs).take n)) := by
    intro b hb
    by_cases hb0 : b = 0
    · subst hb0
      constructor
      · intro _
        exact Or.inl rfl
      · intro _ h0
        exact (htdmem 0 h0).2 rfl
    · have hbdesc : b ∈ snapshotNumbersDesc fs.dirs :=
        (mem_snapshotNumbersDesc _ _).mpr ⟨hb, hb0⟩
      constructor
      · intro hnt
        rw [← hsplit] at hbdesc
        rcases List.mem_append.mp hbdesc with h | h
        · exact Or.inr h
        · exact absurd h hnt
      · rintro (h0 | htk)
        · exact absurd h0 hb0
        · intro hdt
          have hnds : ((snapshotNumbersDesc fs.dirs).take n
              ++ (snapshotNumbersDesc fs.dirs).drop n).Nodup := by
            rw [hsplit]
            exact hdescnd
          exact (List.disjoint_of_nodup_append hnds) htk hdt
  refine ⟨fs2, hrun, ?_, ?_, ?_, ?_⟩
  · intro b
    rw [hmem2 b]
    constructor
    · rintro ⟨hb, hnt⟩
      exact ⟨hb, (hkey b hb).mp hnt⟩
    · rintro ⟨hb, hor⟩
      exact ⟨hb, (hkey b hb).mpr hor⟩
  · intro h0
    rw [hmem2 0]
    refine ⟨h0, ?_⟩
    intro ht
    exact (htdmem 0 ht).2 rfl
  · have hmemf : ∀ b, b ∈ fs2.dirs.filter (fun b => b ≠ 0) ↔
        b ∈ (snapshotNumbersDesc fs.dirs).take n := by
      intro b
      rw [List.mem_filter]
      constructor
      · rintro ⟨hb2, hb0⟩
        have hb0' : b ≠ 0 := of_decide_eq_true hb0
        rcases (hmem2 b).mp hb2 with ⟨hb, hnt⟩
        rcases (hkey b hb).mp hnt with h0 | htk
        · exact absurd h0 hb0'
        · exact htk
      · intro htk
        have hbdesc : b ∈ snapshotNumbersDesc fs.dirs := (List.take_sublist n _).subset htk
        have hb := (mem_snapshotNumbersDesc _ _).mp hbdesc
        exact ⟨(hmem2 b).mpr ⟨hb.1, (hkey b hb.1).mpr (Or.inr htk)⟩, decide_eq_true hb.2⟩
    have hnm : (fs2.dirs.filter (fun b => b ≠ 0)).Nodup := hnd2.filter _
    have htknd : ((snapshotNumbersDesc fs.dirs).take n).Nodup :=
      (List.take_sublist n _).nodup hdescnd
    have hperm := (List.perm_ext_iff_of_nodup hnm htknd).mpr hmemf
    rw [hperm.length_eq, List.length_take, length_snapshotNumbersDesc fs.dirs hdirs]
  · intro b hbtk c hc hc0 hcnt
    have hcdesc : c ∈ snapshotNumbersDesc fs.dirs :=
      (mem_snapshotNumbersDesc _ _).mpr ⟨hc, hc0⟩
    rw [← hsplit] at hcdesc
    have hctd : c ∈ (snapshotNumbersDesc fs.dirs).drop n := by
      rcases List.mem_append.mp hcdesc with h | h
      · exact absurd h hcnt
      · exact h
    have hpw : ((snapshotNumbersDesc fs.dirs).take n
        ++ (snapshotNumbersDesc fs.dirs).drop n).Pairwise (fun a b => b < a) := by
      rw [hsplit]
      exact snapshotNumbersDesc_pairwise fs.dirs
    exact (List.pairwise_append.mp hpw).2.2 b hbtk c hctd

/-- Witness for C9 at a concrete state with snapshots 0, 3, 7 and 5, one
volume v and n = 2: the hypotheses hold by evaluation and the theorem
applies. -/
theorem leaveNLastSnapshots_witness :
    (⟨[0, 3, 7, 5], [(3, "v"), (7, "v"), (5, "v")]⟩ : SnapFS).dirs.Nodup ∧
    (⟨[0, 3, 7, 5], [(3, "v"), (7, "v"), (5, "v")]⟩ : SnapFS).vols.Nodup ∧
    (["v"] : List String).Nodup ∧
    (∃ fs2, leaveNLastSnapshots ["v"] 2 ⟨[0, 3, 7, 5], [(3, "v"), (7, "v"), (5, "v")]⟩
        = .ok fs2 ∧
      (∀ b, b ∈ fs2.dirs ↔
          b ∈ (⟨[0, 3, 7, 5], [(3, "v"), (7, "v"), (5, "v")]⟩ : SnapFS).dirs ∧
          (b = 0 ∨ b ∈ (snapshotNumbersDesc [0, 3, 7, 5]).take 2)) ∧
      (0 ∈ (⟨[0, 3, 7, 5], [(3, "v"), (7, "v"), (5, "v")]⟩ : SnapFS).dirs → 0 ∈ fs2.dirs) ∧
      (fs2.dirs.filter (fun b => b ≠ 0)).length
        = min 2 (([0, 3, 7, 5].filter (fun b => b ≠ 0)).length) ∧
      (∀ b ∈ (snapshotNumbersDesc [0, 3, 7, 5]).take 2,
        ∀ c ∈ ([0, 3, 7, 5] : List Nat), c ≠ 0 →
          c ∉ (snapshotNumbersDesc [0, 3, 7, 5]).take 2 → c < b)) :=
  ⟨by decide, by decide, by decide,
    leaveNLastSnapshots_spec ["v"] 2 ⟨[0, 3, 7, 5], [(3, "v"), (7, "v"), (5, "v")]⟩
      (by decide) (by decide) (by decide) (by decide)⟩

/-- One entry met by the recursive_directory_iterator of
proceedFileSystemDirectory: a regular file (with its path and content) or
a directory-like entry. Sidecar hash files themselves are skipped by the
extension test in the source and are therefore modelled separately, as
the sidecar map. -/
inductive FsEntry where
  | file (path content : String)
  | dir (path : String)
deriving DecidableEq, Repr

/-- A symbolic digest: fileDigest p c stands for the sha256 fold of
sha256(path) followed by sha256(content) that the source computes for a
regular file, pathDigest p for the sha256 of the path that it computes
for a directory. Collision freedom of sha256 is modelled by constructor
injectivity. -/
inductive Digest where
  | fileDigest (path content : String)
  | pathDigest (path : String)
deriving DecidableEq, Repr

/-- Lookup of the sidecar store (path._hash files) by path. -/
def sidecarLookup (p : String) : List (String × Digest) → Option Digest
  | [] => none
  | (q, d) :: rest => if p = q then some d else sidecarLookup p rest

/-- The body of the proceedFileSystemDirectory loop for one entry, in
build mode (is_checking false) and checking mode (is_checking true).
It returns the digests written into the running snapshot context by this
entry, and the updated sidecar store. In build mode a missing sidecar is
first computed and persisted; the loop then unconditionally reads the
sidecar back and folds it into the running digest. In checking mode the
digest is always recomputed, persisted (overwriting the sidecar) and
folded. -/
def proceedEntry (isChecking : Bool) (sc : List (String × Digest)) :
    FsEntry → List Digest × List (String × Digest)
  | .file p c =>
    if isChecking then
      ([Digest.fileDigest p c], (p, Digest.fileDigest p c) :: sc)
    else
      match sidecarLookup p sc with
      | none => ([Digest.fileDigest p c], (p, Digest.fileDigest p c) :: sc)
      | some d => ([d], sc)
  | .dir p =>
    if isChecking then
      ([Digest.pathDigest p], (p, Digest.pathDigest p) :: sc)
    else
      match sidecarLookup p sc with
      | none => ([Digest.pathDigest p], (p, Digest.pathDigest p) :: sc)
      | some d => ([d], sc)

/-- proceedFileSystemDirectory: walk the entries in iteration order,
threading the sidecar store, and concatenate everything folded into the
running snapshot digest. -/
def proceedFileSystemDirectory (isChecking : Bool) :
    List FsEntry → List (String × Digest) → List Digest × List (String × Digest)
  | [], sc => ([], sc)
  | e :: rest, sc =>
    let step := proceedEntry isChecking sc e
    let next := proceedFileSystemDirectory isChecking rest step.2
    (step.1 ++ next.1, next.2)

/-- C7 counterexample: in build mode, a regular file with no sidecar hash
has its digest folded into the running snapshot digest on the same pass
(the source writes the sidecar and then unconditionally reads it back
into the running context), while the claim says the fold is skipped on
this pass. -/
theorem build_mode_fresh_file_is_folded :
    (proceedFileSystemDirectory false [FsEntry.file "a" "x"] []).1
      = [Digest.fileDigest "a" "x"] ∧
    (proceedFileSystemDirectory false [FsEntry.file "a" "x"] []).1 ≠ [] ∧
    sidecarLookup "a" (proceedFileSystemDirectory false [FsEntry.file "a" "x"] []).2
      = some (Digest.fileDigest "a" "x") := by
  refine ⟨rfl, by decide, rfl⟩

/-- C7 (amended): in build mode, a regular file with no sidecar hash gets
its digest (hash of path and hash of content) computed, persisted into the
sidecar, and folded into the running snapshot digest on the same pass; a
file whose sidecar already exists has the stored digest folded in and the
store left unchanged. -/
theorem build_mode_file_digest_spec (sc : List (String × Digest)) (p c : String)
    (rest : List FsEntry) :
    (sidecarLookup p sc = none →
        proceedFileSystemDirectory false (FsEntry.file p c :: rest) sc
          = (Digest.fileDigest p c
              :: (proceedFileSystemDirectory false rest ((p, Digest.fileDigest p c) :: sc)).1,
             (proceedFileSystemDirectory false rest ((p, Digest.fileDigest p c) :: sc)).2)) ∧
    (∀ d, sidecarLookup p sc = some d →
        proceedFileSystemDirectory false (FsEntry.file p c :: rest) sc
          = (d :: (proceedFileSystemDirectory false rest sc).1,
             (proceedFileSystemDirectory false rest sc).2)) := by
  constructor
  · intro hnone
    show ((proceedEntry false sc (FsEntry.file p c)).1 ++ _, _) = _
    simp [proceedEntry, hnone]
  · intro d hsome
    show ((proceedEntry false sc (FsEntry.file p c)).1 ++ _, _) = _
    simp [proceedEntry, hsome]

/-- Witness for the amended C7: both branches evaluated at concrete
stores, a fresh file a and a cached file b. -/
theorem build_mode_file_digest_witness :
    sidecarLookup "a" [] = none ∧
    sidecarLookup "b" [("b", Digest.fileDigest "b" "old")] = some (Digest.fileDigest "b" "old") ∧
    proceedFileSystemDirectory false [FsEntry.file "a" "x"] []
      = ([Digest.fileDigest "a" "x"], [("a", Digest.fileDigest "a" "x")]) ∧
    proceedFileSystemDirectory false [FsEntry.file "b" "new"]
        [("b", Digest.fileDigest "b" "old")]
      = ([Digest.fileDigest "b" "old"], [("b", Digest.fileDigest "b" "old")]) :=
  ⟨rfl, rfl,
    (build_mode_file_digest_spec [] "a" "x" []).1 rfl,
    (build_mode_file_digest_spec [("b", Digest.fileDigest "b" "old")] "b" "new" []).2
      (Digest.fileDigest "b" "old") rfl⟩

/-- The diff-related filesystem state of SnapshotManager: the snapshot
directories and the assembled diff files (block number, content) under
diffs/. -/
structure DiffState where
  snapDirs : List Nat
  diffFiles : List (Nat × String)
deriving DecidableEq, Repr

/-- Lookup of an assembled diff file by block number (the
fs::is_regular(path) test of makeOrGetDiff). -/
def diffLookup (b : Nat) : List (Nat × String) → Option String
  | [] => none
  | (b2, c) :: rest => if b = b2 then some c else diffLookup b rest

/-- The btrfs.send loop of makeOrGetDiff: one send per configured volume,
returning the produced per-volume streams and the number of send
invocations; a failed send stops the loop. -/
def runSends (send : Nat → String → Option String) (b : Nat) :
    List String → Option (List String) × Nat
  | [] => (some [], 0)
  | v :: rest =>
    match send b v with
    | none => (none, 1)
    | some part =>
      let next := runSends send b rest
      (next.1.map (fun parts => part :: parts), next.2 + 1)

/-- makeOrGetDiff(b): return the assembled diff immediately if it already
exists; otherwise require snapshot b to exist (SnapshotAbsent if not),
run one btrfs send per volume (CannotPerformBtrfsOperation on failure,
with all partial output removed), concatenate the per-volume streams into
the diff file and delete the temporaries. The returned number counts the
send invocations of the call. -/
def makeOrGetDiff (volumes : List String) (send : Nat → String → Option String)
    (b : Nat) (st : DiffState) : SMResult (String × DiffState × Nat) :=
  match diffLookup b st.diffFiles with
  | some content => .ok (content, st, 0)
  | none =>
    if b ∈ st.snapDirs then
      match runSends send b volumes with
      | (none, _) => .err .cannotPerformBtrfsOperation
      | (some parts, k) =>
        .ok (String.join parts, ⟨st.snapDirs, (b, String.join parts) :: st.diffFiles⟩, k)
    else .err (.snapshotAbsent b)

/-- C8: makeOrGetDiff is idempotent — after any successful call, a second
call returns the same diff content and the same state without invoking
the underlying send primitive again (zero send invocations). -/
theorem makeOrGetDiff_idempotent (volumes : List String)
    (send : Nat → String → Option String) (b : Nat) (st : DiffState)
    (c : String) (st2 : DiffState) (k : Nat)
    (h : makeOrGetDiff volumes send b st = .ok (c, st2, k)) :
    makeOrGetDiff volumes send b st2 = .ok (c, st2, 0) := by
  cases hl : diffLookup b st.diffFiles with
  | some c0 =>
    unfold makeOrGetDiff at h
    rw [hl] at h
    cases h
    unfold makeOrGetDiff
    rw [hl]
  | none =>
    unfold makeOrGetDiff at h
    rw [hl] at h
    by_cases hdir : b ∈ st.snapDirs
    · rw [if_pos hdir] at h
      cases hr : runSends send b volumes with
      | mk o k2 =>
        rw [hr] at h
        cases o with
        | none => cases h
        | some parts =>
          cases h
          unfold makeOrGetDiff
          simp [diffLookup]
    · rw [if_neg hdir] at h
      cases h

/-- Witness for C8: a concrete first call assembles the diff with two
send invocations, and the second call returns the same content with zero
send invocations. -/
theorem makeOrGetDiff_idempotent_witness :
    makeOrGetDiff ["a", "b"] (fun _ v => some v) 1 ⟨[1], []⟩
      = .ok ("ab", ⟨[1], [(1, "ab")]⟩, 2) ∧
    makeOrGetDiff ["a", "b"] (fun _ v => some v) 1 ⟨[1], [(1, "ab")]⟩
      = .ok ("ab", ⟨[1], [(1, "ab")]⟩, 0) :=
  ⟨by decide,
    makeOrGetDiff_idempotent ["a", "b"] (fun _ v => some v) 1 ⟨[1], []⟩
      "ab" ⟨[1], [(1, "ab")]⟩ 2 (by decide)⟩

/-- C10 (implicit): when the assembled diff file for b already exists,
makeOrGetDiff returns it immediately without checking whether snapshot b
exists — the SnapshotAbsent check lives only on the uncached path — so a
cached diff is served even after snapshot b has been removed. -/
theorem cached_diff_served_without_snapshot_check (volumes : List String)
    (send : Nat → String → Option String) (b : Nat) (st : DiffState) (c : String)
    (hcache : diffLookup b st.diffFiles = some c) (_habsent : b ∉ st.snapDirs) :
    makeOrGetDiff volumes send b st = .ok (c, st, 0) := by
  unfold makeOrGetDiff
  rw [hcache]

/-- Witness for C10: snapshot 1 no longer exists while its diff is still
cached; the call succeeds with the cached content even though every send
would fail. -/
theorem cached_diff_served_witness :
    diffLookup 1 [(1, "d")] = some "d" ∧
    1 ∉ (⟨[], [(1, "d")]⟩ : DiffState).snapDirs ∧
    makeOrGetDiff ["a"] (fun _ _ => none) 1 ⟨[], [(1, "d")]⟩
      = .ok ("d", ⟨[], [(1, "d")]⟩, 0) :=
  ⟨by decide, by decide,
    cached_diff_served_without_snapshot_check ["a"] (fun _ _ => none) 1
      ⟨[], [(1, "d")]⟩ "d" (by decide) (by decide)⟩
